import Mathlib

/-!
Verification development for the Cursor wire codec, session state machine,
tool bridge and auth helpers of this repository.

Conventions of the shallow embedding:
* wire bytes are `List Nat` (each value below 256 where the code produces them);
* JavaScript strings are `List Char` (sequences of unicode scalars, the
  well-formed fragment of UTF-16 strings);
* `Date.now()` timestamps are explicit `Nat` arguments threaded through the
  state machine;
* `bigint` counters are `Nat` (the code never reaches 2^64);
* fallible code (thrown exceptions) returns `Option`;
* loops whose termination is not structural take an explicit fuel argument
  sized so that it can never run out on the real input.
-/

namespace Spec2Proof

/-- JavaScript strings as lists of unicode scalars. -/
abbrev Str := List Char

/-- The characters of a Lean string literal. -/
def strL (s : String) : Str := s.data

/-! ## Varint codec (debug-proto-encoding script, copied from agent-service)

`encodeVarint`: little-endian base 128, low seven bits per byte, high bit set
on every byte but the last; a do/while loop, so value 0 still emits one byte.
The fuel argument only bounds the loop; `encodeVarint` hands it `v` itself,
which the loop (dividing by 128 each step while the value is non-zero) can
never exhaust. -/

def encodeVarintAux : Nat → Nat → List Nat
  | 0, v => [v % 128]
  | fuel + 1, v =>
    if v / 128 = 0 then [v % 128] else (v % 128 + 128) :: encodeVarintAux fuel (v / 128)

def encodeVarint (v : Nat) : List Nat := encodeVarintAux v v

/-- The varint reader of `analyzeProtoBytes` (wire type 0 branch): accumulate
seven-bit groups little-endian, stopping at the first byte without the high
bit (bytes come from a `Uint8Array`, so the 0x80 test is `128 ≤ b`). -/
def decodeVarint : List Nat → Nat
  | [] => 0
  | b :: rest => b % 128 + if 128 ≤ b then 128 * decodeVarint rest else 0

theorem decodeVarint_encodeVarintAux (fuel v : Nat) (hv : v < 128 ^ (fuel + 1)) :
    decodeVarint (encodeVarintAux fuel v) = v := by
  induction fuel generalizing v with
  | zero =>
    have h1 : ¬ (128 ≤ v % 128) := by omega
    have hv' : v < 128 := by simpa using hv
    simp [encodeVarintAux, decodeVarint, h1]
    omega
  | succ fuel ih =>
    by_cases h : v / 128 = 0
    · have h1 : ¬ (128 ≤ v % 128) := by omega
      simp [encodeVarintAux, h, decodeVarint, h1]
      omega
    · have h2 : 128 ≤ v % 128 + 128 := by omega
      have hd : v / 128 < 128 ^ (fuel + 1) := by
        rw [Nat.div_lt_iff_lt_mul (by omega)]
        calc v < 128 ^ (fuel + 1 + 1) := hv
        _ = 128 ^ (fuel + 1) * 128 := by rw [pow_succ]
      simp [encodeVarintAux, h, decodeVarint, h2, ih (v / 128) hd]
      omega

theorem decodeVarint_encodeVarint (v : Nat) : decodeVarint (encodeVarint v) = v := by
  apply decodeVarint_encodeVarintAux
  calc v < 2 ^ (v + 1) := by
        calc v < 2 ^ v := Nat.lt_two_pow v
        _ ≤ 2 ^ (v + 1) := Nat.pow_le_pow_right (by omega) (by omega)
  _ ≤ 128 ^ (v + 1) := Nat.pow_le_pow_left (by omega) _

theorem encodeVarintAux_ne_nil (fuel v : Nat) : encodeVarintAux fuel v ≠ [] := by
  cases fuel with
  | zero => simp [encodeVarintAux]
  | succ fuel => rw [encodeVarintAux]; split <;> simp

theorem encodeVarintAux_length_le (fuel v k : Nat) (hk : 1 ≤ k) (hv : v < 128 ^ k) :
    (encodeVarintAux fuel v).length ≤ k := by
  induction fuel generalizing v k with
  | zero => simpa [encodeVarintAux] using hk
  | succ fuel ih =>
    rw [encodeVarintAux]
    by_cases h : v / 128 = 0
    · simpa [h] using hk
    · have hk1 : 1 ≤ k - 1 := by
        rcases Nat.lt_or_ge k 2 with hk0 | h2
        · exfalso
          have : k = 1 := by omega
          subst this
          simp only [pow_one] at hv
          omega
        · omega
      have hd : v / 128 < 128 ^ (k - 1) := by
        rw [Nat.div_lt_iff_lt_mul (by omega)]
        calc v < 128 ^ k := hv
        _ = 128 ^ (k - 1) * 128 := by
              rw [← pow_succ]
              congr 1
              omega
      simp only [h, if_false, List.length_cons]
      have := ih (v / 128) (k - 1) hk1 hd
      omega

theorem encodeVarint_length_le (v k : Nat) (hk : 1 ≤ k) (hv : v < 128 ^ k) :
    (encodeVarint v).length ≤ k :=
  encodeVarintAux_length_le v v k hk hv

/-- C2: for every `v < 2^64`, decoding the varint encoding of `v` yields `v`,
the encoding is at most 10 bytes and at least one byte, and the concrete
samples `0 → 00`, `127 → 7f`, `300 → ac 02` hold. -/
theorem varint_roundtrip_C2 (v : Nat) (hv : v < 2 ^ 64) :
    decodeVarint (encodeVarint v) = v ∧ (encodeVarint v).length ≤ 10 ∧
    1 ≤ (encodeVarint v).length ∧
    encodeVarint 0 = [0x00] ∧ encodeVarint 127 = [0x7f] ∧
    encodeVarint 300 = [0xac, 0x02] := by
  refine ⟨decodeVarint_encodeVarint v, ?_, ?_, by decide, by decide, by decide⟩
  · exact encodeVarint_length_le v 10 (by omega) (by calc
      v < 2 ^ 64 := hv
      _ ≤ 128 ^ 10 := by norm_num)
  · have h := encodeVarintAux_ne_nil v v
    cases hc : encodeVarint v with
    | nil => exact absurd hc h
    | cons a l => simp

theorem varint_roundtrip_C2_witness :
    decodeVarint (encodeVarint 300) = 300 ∧ (encodeVarint 300).length ≤ 10 ∧
    1 ≤ (encodeVarint 300).length ∧
    encodeVarint 0 = [0x00] ∧ encodeVarint 127 = [0x7f] ∧
    encodeVarint 300 = [0xac, 0x02] :=
  varint_roundtrip_C2 300 (by norm_num)

/-! ## UTF-8 (the host's `TextEncoder` / `TextDecoder`)

`utf8Encode` models `new TextEncoder().encode(...)` on well-formed strings;
`utf8Decode` models `new TextDecoder('utf-8', { fatal: true }).decode(...)`
(`none` for the thrown `TypeError`); `utf8DecodeLossy` models the default
non-fatal `new TextDecoder().decode(...)`, emitting U+FFFD on an invalid
sequence and re-synchronising one byte later (exact on valid input, an
approximation of the replacement policy on invalid input). -/

def utf8EncodeChar (c : Char) : List Nat :=
  if c.toNat < 0x80 then [c.toNat]
  else if c.toNat < 0x800 then [0xC0 + c.toNat / 64, 0x80 + c.toNat % 64]
  else if c.toNat < 0x10000 then
    [0xE0 + c.toNat / 4096, 0x80 + c.toNat / 64 % 64, 0x80 + c.toNat % 64]
  else
    [0xF0 + c.toNat / 262144, 0x80 + c.toNat / 4096 % 64, 0x80 + c.toNat / 64 % 64,
      0x80 + c.toNat % 64]

def utf8Encode (s : Str) : List Nat := (s.map utf8EncodeChar).flatten

/-- One UTF-8 sequence starting with byte `b0`, continuation bytes taken from
`rest`: the decoded scalar and the remaining bytes, `none` for an invalid or
truncated sequence (overlong forms, surrogates and values above U+10FFFF all
rejected, as the WHATWG decoder does). -/
def utf8Step (b0 : Nat) (rest : List Nat) : Option (Char × List Nat) :=
  if b0 < 0x80 then some (Char.ofNat b0, rest)
  else if b0 < 0xC2 then none
  else if b0 < 0xE0 then
    match rest with
    | b1 :: r =>
      if 0x80 ≤ b1 && b1 < 0xC0 then
        some (Char.ofNat ((b0 - 0xC0) * 64 + (b1 - 0x80)), r)
      else none
    | [] => none
  else if b0 < 0xF0 then
    match rest with
    | b1 :: b2 :: r =>
      if (0x80 ≤ b1 && b1 < 0xC0) && (0x80 ≤ b2 && b2 < 0xC0)
          && !(b0 == 0xE0 && b1 < 0xA0) && !(b0 == 0xED && 0xA0 ≤ b1) then
        some (Char.ofNat ((b0 - 0xE0) * 4096 + (b1 - 0x80) * 64 + (b2 - 0x80)), r)
      else none
    | _ => none
  else if b0 < 0xF5 then
    match rest with
    | b1 :: b2 :: b3 :: r =>
      if (0x80 ≤ b1 && b1 < 0xC0) && (0x80 ≤ b2 && b2 < 0xC0) && (0x80 ≤ b3 && b3 < 0xC0)
          && !(b0 == 0xF0 && b1 < 0x90) && !(b0 == 0xF4 && 0x90 ≤ b1) then
        some (Char.ofNat ((b0 - 0xF0) * 262144 + (b1 - 0x80) * 4096
          + (b2 - 0x80) * 64 + (b3 - 0x80)), r)
      else none
    | _ => none
  else none

def utf8DecodeAux : Nat → List Nat → Option Str
  | _, [] => some []
  | 0, _ :: _ => none
  | fuel + 1, b0 :: rest =>
    match utf8Step b0 rest with
    | some (c, r) => (utf8DecodeAux fuel r).map (c :: ·)
    | none => none

def utf8Decode (bs : List Nat) : Option Str := utf8DecodeAux bs.length bs

def utf8DecodeLossyAux : Nat → List Nat → Str
  | _, [] => []
  | 0, _ :: _ => []
  | fuel + 1, b0 :: rest =>
    match utf8Step b0 rest with
    | some (c, r) => c :: utf8DecodeLossyAux fuel r
    | none => Char.ofNat 0xFFFD :: utf8DecodeLossyAux fuel rest

def utf8DecodeLossy (bs : List Nat) : Str := utf8DecodeLossyAux bs.length bs

/-! ## Field encoders (debug-proto-encoding script, copied from agent-service) -/

def concatBytes (arrays : List (List Nat)) : List Nat := arrays.flatten

def encodeFieldKey (fieldNumber wireType : Nat) : List Nat :=
  encodeVarint ((fieldNumber <<< 3) ||| wireType)

def encodeUint32Field (fieldNumber value : Nat) : List Nat :=
  if value = 0 then []
  else concatBytes [encodeFieldKey fieldNumber 0, encodeVarint value]

/-- `encodeInt32Field`: negative values are sent as `value + 2^32` (the source
would loop forever below `-2^32`; such values never occur). -/
def encodeInt32Field (fieldNumber : Nat) (value : Int) : List Nat :=
  if value = 0 then []
  else concatBytes [encodeFieldKey fieldNumber 0,
    encodeVarint (if 0 ≤ value then value.toNat else (value + 4294967296).toNat)]

def encodeStringField (fieldNumber : Nat) (value : Str) : List Nat :=
  if value = [] then []
  else concatBytes [encodeFieldKey fieldNumber 2,
    encodeVarint (utf8Encode value).length, utf8Encode value]

def encodeMessageField (fieldNumber : Nat) (message : List Nat) : List Nat :=
  concatBytes [encodeFieldKey fieldNumber 2, encodeVarint message.length, message]

/-- `encodeShellSuccess`: fields 1 command, 2 cwd, 3 exit code, 4 signal
(always empty), 5 stdout, 6 stderr, 7 execution time (the source guards
field 7 with JavaScript truthiness, so both `undefined` and `0` omit it). -/
def encodeShellSuccess (command cwd stdout stderr : Str) (exitCode : Int)
    (executionTimeMs : Option Int) : List Nat :=
  concatBytes [
    encodeStringField 1 command,
    encodeStringField 2 cwd,
    encodeInt32Field 3 exitCode,
    encodeStringField 4 [],
    encodeStringField 5 stdout,
    encodeStringField 6 stderr,
    match executionTimeMs with
    | some t => if t = 0 then [] else encodeInt32Field 7 t
    | none => []]

def encodeExecClientStreamClose (id : Nat) : List Nat := encodeUint32Field 1 id

def buildExecClientControlMessage (id : Nat) : List Nat :=
  encodeMessageField 1 (encodeExecClientStreamClose id)

/-! ## Session-reuse utilities (tool-call id round trip) -/

/-- `createSessionId` output alphabet: the test the regex capture group uses. -/
def isAlnumAscii (c : Char) : Bool :=
  (('a' ≤ c && c ≤ 'z') || ('A' ≤ c && c ≤ 'Z')) || ('0' ≤ c && c ≤ '9')

def makeToolCallId (sessionId callBase : Str) : Str :=
  strL "sess_" ++ sessionId ++ strL "__call_" ++ callBase

/-- Greedy backtracking of the capture group `([a-zA-Z0-9]+)` of
`^sess_([a-zA-Z0-9]+)__call_`: try the longest alphanumeric run first and
give characters back until the literal `__call_` follows; at least one
character must remain. -/
def backtrackCall (rest : Str) : Nat → Option Str
  | 0 => none
  | k + 1 =>
    if (strL "__call_").isPrefixOf (rest.drop (k + 1)) then some (rest.take (k + 1))
    else backtrackCall rest k

/-- `parseSessionIdFromToolCallId`: `null`/`undefined`/`""` give `null`;
otherwise match `^sess_([a-zA-Z0-9]+)__call_` and return the capture. -/
def parseSessionIdFromToolCallId (toolCallId : Option Str) : Option Str :=
  match toolCallId with
  | none => none
  | some l =>
    if l = [] then none
    else if (strL "sess_").isPrefixOf l then
      backtrackCall (l.drop 5) (((l.drop 5)).takeWhile isAlnumAscii).length
    else none

theorem takeWhile_append_stop {p : Char → Bool} (xs : Str) (c : Char) (ys : Str)
    (hxs : ∀ a ∈ xs, p a = true) (hc : p c = false) :
    (xs ++ c :: ys).takeWhile p = xs := by
  induction xs with
  | nil => simp [List.takeWhile_cons, hc]
  | cons a t ih =>
    have ha := hxs a (by simp)
    simp only [List.cons_append, List.takeWhile_cons, ha, if_true]
    rw [ih fun x hx => hxs x (by simp [hx])]

/-- C8: parsing the session id back out of
`makeToolCallId(sid, base) = "sess_<sid>__call_<base>"` returns `sid` for
every non-empty alphanumeric `sid` and arbitrary `base`. -/
theorem tool_id_reversible_C8 (sid base : Str) (h1 : sid ≠ [])
    (h2 : ∀ c ∈ sid, isAlnumAscii c = true) :
    parseSessionIdFromToolCallId (some (makeToolCallId sid base)) = some sid := by
  obtain ⟨a, t, rfl⟩ : ∃ a t, sid = a :: t := by
    cases sid with
    | nil => exact absurd rfl h1
    | cons a t => exact ⟨a, t, rfl⟩
  simp only [makeToolCallId, parseSessionIdFromToolCallId]
  have hne : ¬ (strL "sess_" ++ (a :: t) ++ strL "__call_" ++ base = []) := by
    simp [strL]
  rw [if_neg hne]
  have hpre : (strL "sess_").isPrefixOf
      (strL "sess_" ++ (a :: t) ++ strL "__call_" ++ base) = true := by
    rw [List.isPrefixOf_iff_prefix]
    simp only [List.append_assoc]
    exact List.prefix_append _ _
  rw [if_pos hpre]
  have hdrop : (strL "sess_" ++ (a :: t) ++ strL "__call_" ++ base).drop 5
      = (a :: t) ++ (strL "__call_" ++ base) := by
    simp [strL, List.append_assoc]
  rw [hdrop]
  have hstop : isAlnumAscii '_' = false := by decide
  have htake : (((a :: t) ++ (strL "__call_" ++ base)).takeWhile isAlnumAscii) = a :: t := by
    have : (a :: t) ++ (strL "__call_" ++ base)
        = (a :: t) ++ '_' :: (strL "_call_" ++ base) := by simp [strL]
    rw [this]
    exact takeWhile_append_stop (a :: t) '_' _ h2 hstop
  rw [htake]
  have hlen : (a :: t).length = t.length + 1 := by simp
  rw [hlen]
  unfold backtrackCall
  have hdrop2 : ((a :: t) ++ (strL "__call_" ++ base)).drop (t.length + 1)
      = strL "__call_" ++ base := by
    have : t.length + 1 = (a :: t).length := by simp
    rw [this, List.drop_left]
  have hpre2 : (strL "__call_").isPrefixOf
      (((a :: t) ++ (strL "__call_" ++ base)).drop (t.length + 1)) = true := by
    rw [hdrop2, List.isPrefixOf_iff_prefix]
    exact List.prefix_append _ _
  rw [if_pos hpre2]
  have htakeo : ((a :: t) ++ (strL "__call_" ++ base)).take (t.length + 1) = a :: t := by
    have : t.length + 1 = (a :: t).length := by simp
    rw [this, List.take_left]
  rw [htakeo]

theorem tool_id_reversible_C8_witness :
    parseSessionIdFromToolCallId (some (makeToolCallId (strL "abc123") (strL "ex-9"))) =
      some (strL "abc123") :=
  tool_id_reversible_C8 (strL "abc123") (strL "ex-9") (by decide) (by decide)

/-! ## Token-expiry predicate (`plugin.ts`) -/

structure OAuthAuthDetails where
  access : Option Str
  expires : Option Int

/-- `accessTokenExpired`: `!auth.access` (absent or empty string) or a
non-numeric `expires` give `true`; otherwise `expires <= Date.now() + 60_000`. -/
def accessTokenExpired (now : Int) (auth : OAuthAuthDetails) : Bool :=
  match auth.access, auth.expires with
  | some a, some e => if a = [] then true else decide (e ≤ now + 60 * 1000)
  | _, _ => true

/-- C9: the expiry predicate holds exactly when the access token is absent (or
empty), the stored expiry is absent, or the expiry is at or below
`now + 60_000`; in particular a credential with an access token whose expiry
lies more than 60 seconds in the future is not expired. -/
theorem token_expiry_C9 (now : Int) (auth : OAuthAuthDetails) :
    accessTokenExpired now auth = true ↔
      (auth.access = none ∨ auth.access = some [] ∨ auth.expires = none ∨
        ∃ e, auth.expires = some e ∧ e ≤ now + 60000) := by
  obtain ⟨acc, exp⟩ := auth
  cases acc with
  | none => simp [accessTokenExpired]
  | some a =>
    cases exp with
    | none => simp [accessTokenExpired]
    | some e =>
      by_cases ha : a = []
      · subst ha
        simp [accessTokenExpired]
      · simp only [accessTokenExpired, if_neg ha]
        constructor
        · intro h
          refine Or.inr (Or.inr (Or.inr ⟨e, rfl, ?_⟩))
          have := of_decide_eq_true h
          omega
        · rintro (h | h | h | ⟨e', he', hle⟩) <;> simp_all

/-! ## Read tool reply (`sendToolResultsToCursor`, read branch) -/

/-- `content.split("\n")` (always at least one segment). -/
def splitOnNl : Str → List Str
  | [] => [[]]
  | c :: rest =>
    if c = '\n' then [] :: splitOnNl rest
    else
      match splitOnNl rest with
      | h :: t => (c :: h) :: t
      | [] => [[c]]

/-- JavaScript `String.length`: UTF-16 code units. -/
def utf16Length (s : Str) : Nat := (s.map (fun c => if c.toNat < 0x10000 then 1 else 2)).sum

/-- The UTF-8 byte length of a string: what the specification calls the byte
length of the content. -/
def utf8ByteLength (s : Str) : Nat := (utf8Encode s).length

structure ReadResultReply where
  content : Str
  totalLines : Nat
  fileSize : Nat
  truncated : Bool
  deriving DecidableEq, Repr

/-- The read branch of `sendToolResultsToCursor`: it calls
`sendReadResult(id, execId, content, path, content.split("\n").length,
BigInt(content.length), false)`. -/
def readToolReply (content : Str) : ReadResultReply :=
  { content := content
    totalLines := (splitOnNl content).length
    fileSize := utf16Length content
    truncated := false }

theorem splitOnNl_length (s : Str) : (splitOnNl s).length = s.count '\n' + 1 := by
  induction s with
  | nil => simp [splitOnNl]
  | cons c rest ih =>
    by_cases hc : c = '\n'
    · subst hc
      simp [splitOnNl, List.count_cons, ih]
    · simp only [splitOnNl, if_neg hc]
      have hne : splitOnNl rest ≠ [] := by
        cases rest with
        | nil => simp [splitOnNl]
        | cons d r =>
          simp only [splitOnNl]
          split
          · simp
          · split <;> simp
      cases hsp : splitOnNl rest with
      | nil => exact absurd hsp hne
      | cons h t =>
        have : (c :: rest).count '\n' = rest.count '\n' := by
          simp [List.count_cons, hc]
        rw [this, ← ih, hsp]
        simp

theorem utf16_eq_utf8_of_ascii (s : Str) (h : ∀ c ∈ s, c.toNat < 128) :
    utf16Length s = utf8ByteLength s := by
  induction s with
  | nil => simp [utf16Length, utf8ByteLength, utf8Encode]
  | cons c rest ih =>
    have hc : c.toNat < 128 := h c (by simp)
    have hrest := ih fun a ha => h a (by simp [ha])
    have henc : utf8EncodeChar c = [c.toNat] := by
      unfold utf8EncodeChar
      rw [if_pos hc]
    have hlt : c.toNat < 0x10000 := by omega
    simp only [utf16Length, utf8ByteLength, utf8Encode] at hrest ⊢
    simp only [List.map_cons, List.flatten_cons, List.sum_cons, List.length_append, henc,
      List.length_cons, List.length_nil, if_pos hlt]
    omega

/-- C6 counterexample: for content `"é"` the reply's `fileSize` is the
JavaScript string length 1, not the byte length 2 of the content. -/
theorem read_reply_byte_length_cex_C6 :
    (readToolReply (strL "é")).fileSize ≠ utf8ByteLength (strL "é") := by decide

/-- C6 (amended): the read reply carries the content verbatim, `totalLines`
equal to the number of newline-separated segments (one more than the count of
newline characters), `fileSize` equal to the JavaScript string length of the
content in UTF-16 code units (which equals the byte length exactly when the
content is ASCII), and `truncated = false`. -/
theorem read_reply_C6 (content : Str) :
    (readToolReply content).content = content ∧
    (readToolReply content).totalLines = content.count '\n' + 1 ∧
    (readToolReply content).fileSize = utf16Length content ∧
    (readToolReply content).truncated = false ∧
    ((∀ c ∈ content, c.toNat < 128) →
      (readToolReply content).fileSize = utf8ByteLength content) :=
  ⟨rfl, splitOnNl_length content, rfl, rfl, fun h => utf16_eq_utf8_of_ascii content h⟩

/-! ## Schema-free protobuf field parsing

The repository's `proto/decoding.ts` module (`parseProtoFields`) is not among
the staged source files; only its callers are. -/

inductive ProtoValue
  | nat (n : Nat)
  | bytes (bs : List Nat)
  deriving DecidableEq, Repr

structure ProtoField where
  fieldNumber : Nat
  wireType : Nat
  value : ProtoValue
  deriving DecidableEq, Repr

/-- Modelled from the spec: the varint reader of the missing `decoding.ts`
module; `parse_fields`' "decoder refuses inputs exceeding 10 bytes" gives the
fuel bound, and a truncated varint is malformed (`none`). Consumes the bytes
of one varint and returns the value with the remaining bytes. -/
def readVarint : Nat → List Nat → Option (Nat × List Nat)
  | _, [] => none
  | 0, _ :: _ => none
  | fuel + 1, b :: rest =>
    if b < 128 then some (b % 128, rest)
    else (readVarint fuel rest).map fun vr => (b % 128 + 128 * vr.1, vr.2)

/-- Modelled from the spec: `parse_fields(bytes) -> [(field_number, wire_type,
payload)]` of the missing `decoding.ts`: read a varint tag
(`field_number << 3 | wire_type`), then a varint value for wire type 0 or a
length-prefixed payload for wire type 2; malformed varints, truncated `LEN`
payloads and the unused wire types fail the whole parse (fatal, `none` here,
a thrown error in the code). Each iteration consumes at least one byte, so
`length + 1` fuel can never run out. -/
def parseProtoFieldsAux : Nat → List Nat → Option (List ProtoField)
  | _, [] => some []
  | 0, _ :: _ => none
  | fuel + 1, bs =>
    match readVarint 10 bs with
    | none => none
    | some (tag, rest) =>
      if tag % 8 = 0 then
        match readVarint 10 rest with
        | none => none
        | some (v, rest2) =>
          (parseProtoFieldsAux fuel rest2).map (⟨tag / 8, 0, .nat v⟩ :: ·)
      else if tag % 8 = 2 then
        match readVarint 10 rest with
        | none => none
        | some (len, rest2) =>
          if len ≤ rest2.length then
            (parseProtoFieldsAux fuel (rest2.drop len)).map
              (⟨tag / 8, 2, .bytes (rest2.take len)⟩ :: ·)
          else none
      else none

def parseProtoFields (bs : List Nat) : Option (List ProtoField) :=
  parseProtoFieldsAux (bs.length + 1) bs

/-! ## KV message handling (`kv-messages`) -/

inductive KvMessageType
  | unknown
  | getBlobArgs
  | setBlobArgs
  deriving DecidableEq, Repr

structure KvServerMessage where
  id : Nat
  messageType : KvMessageType
  blobId : Option (List Nat)
  blobData : Option (List Nat)
  deriving DecidableEq, Repr

/-- The field loop of `parseKvServerMessage`; the nested `parseProtoFields`
of a `get_blob_args`/`set_blob_args` payload can throw, which aborts the whole
parse (`none`). -/
def kvFieldLoop (r : KvServerMessage) : List ProtoField → Option KvServerMessage
  | [] => some r
  | f :: fs =>
    match f.fieldNumber, f.wireType, f.value with
    | 1, 0, .nat v => kvFieldLoop { r with id := v } fs
    | 2, 2, .bytes b =>
      match parseProtoFields b with
      | none => none
      | some afs =>
        kvFieldLoop (afs.foldl (fun acc af =>
          match af.fieldNumber, af.wireType, af.value with
          | 1, 2, .bytes bid => { acc with blobId := some bid }
          | _, _, _ => acc) { r with messageType := .getBlobArgs }) fs
    | 3, 2, .bytes b =>
      match parseProtoFields b with
      | none => none
      | some afs =>
        kvFieldLoop (afs.foldl (fun acc af =>
          match af.fieldNumber, af.wireType, af.value with
          | 1, 2, .bytes bid => { acc with blobId := some bid }
          | 2, 2, .bytes bd => { acc with blobData := some bd }
          | _, _, _ => acc) { r with messageType := .setBlobArgs }) fs
    | _, _, _ => kvFieldLoop r fs

/-- `parseKvServerMessage`: starts from `{ id: 0, messageType: 'unknown' }`,
so fields absent on the wire decode as their defaults. -/
def parseKvServerMessage (data : List Nat) : Option KvServerMessage :=
  (parseProtoFields data).bind
    (kvFieldLoop { id := 0, messageType := .unknown, blobId := none, blobData := none })

/-- C7: an unsigned integer field with value 0, an `int32` field with value 0
and a string field with value `""` encode to zero bytes for every field
number; a message all of whose non-message fields are defaults (the
`ShellSuccess` of the debug script, the `ExecClientStreamClose` with id 0)
encodes to the empty byte string; and absent fields decode as defaults
(`parseKvServerMessage` of the empty message yields id 0). -/
theorem default_omission_C7 (f : Nat) :
    encodeUint32Field f 0 = [] ∧ encodeInt32Field f 0 = [] ∧
    encodeStringField f [] = [] ∧
    encodeShellSuccess [] [] [] [] 0 none = [] ∧
    encodeExecClientStreamClose 0 = [] ∧
    parseKvServerMessage [] =
      some { id := 0, messageType := .unknown, blobId := none, blobData := none } := by
  refine ⟨rfl, rfl, rfl, ?_, rfl, rfl⟩
  simp [encodeShellSuccess, encodeStringField, encodeInt32Field, concatBytes]

/-! ## Blob analysis (`analyzeBlobData`, identical in kv-messages and the
agent-service private copy)

`JSON.parse` is a host builtin; the embedding takes it as a parameter
`jsonParse` (numbers are irrelevant to every use, so they carry `Int`). -/

inductive Json
  | null
  | bool (b : Bool)
  | num (x : Int)
  | str (s : Str)
  | arr (items : List Json)
  | obj (fields : List (Str × Json))

inductive BlobType
  | json
  | text
  | protobuf
  | binary
  deriving DecidableEq, Repr

structure ProtoFieldEntry where
  num : Nat
  wire : Nat
  size : Nat
  text : Option Str

structure BlobAnalysis where
  type : BlobType
  json : Option Json
  text : Option Str
  protoFields : Option (List ProtoFieldEntry)

/-- One `{num, wire, size, text?}` entry of the protobuf branch of
`analyzeBlobData`: `size` is the payload length for `LEN` fields and 0
otherwise, `text` the strict UTF-8 decoding of a `LEN` payload when valid. -/
def protoEntryOf (f : ProtoField) : ProtoFieldEntry :=
  { num := f.fieldNumber
    wire := f.wireType
    size := match f.value with | .bytes b => b.length | .nat _ => 0
    text := match f.value with
      | .bytes b => if f.wireType = 2 then utf8Decode b else none
      | .nat _ => none }

/-- `analyzeBlobData`: strict UTF-8 decode first (JSON on success, else text);
otherwise protobuf when the bytes parse into 1..99 fields; otherwise binary. -/
def analyzeBlobData (jsonParse : Str → Option Json) (data : List Nat) : BlobAnalysis :=
  match utf8Decode data with
  | some text =>
    match jsonParse text with
    | some j => { type := .json, json := some j, text := some text, protoFields := none }
    | none => { type := .text, json := none, text := some text, protoFields := none }
  | none =>
    match parseProtoFields data with
    | some fields =>
      if 0 < fields.length ∧ fields.length < 100 then
        { type := .protobuf, json := none, text := none,
          protoFields := some (fields.map protoEntryOf) }
      else { type := .binary, json := none, text := none, protoFields := none }
    | none => { type := .binary, json := none, text := none, protoFields := none }

/-- C10: blob analysis is total and yields exactly one of the four
classifications; and whenever the bytes decode under strict UTF-8 the
classification is json (exactly when the text parses as JSON) or text, never
protobuf or binary. -/
theorem blob_analysis_C10 (jsonParse : Str → Option Json) (data : List Nat) :
    ((analyzeBlobData jsonParse data).type = .json ∨
     (analyzeBlobData jsonParse data).type = .text ∨
     (analyzeBlobData jsonParse data).type = .protobuf ∨
     (analyzeBlobData jsonParse data).type = .binary) ∧
    (∀ txt, utf8Decode data = some txt →
      (analyzeBlobData jsonParse data).type
        = (if (jsonParse txt).isSome then .json else .text)) := by
  constructor
  · unfold analyzeBlobData
    rcases hu : utf8Decode data with _ | txt
    · rcases hp : parseProtoFields data with _ | fields
      · simp
      · by_cases hl : 0 < fields.length ∧ fields.length < 100 <;> simp [hl]
    · rcases hj : jsonParse txt with _ | j <;> simp [hj]
  · intro txt htxt
    unfold analyzeBlobData
    rw [htxt]
    rcases hj : jsonParse txt with _ | j <;> simp [hj]

/-! ## Trailer-frame string handling

`String.prototype.includes`, the regex `/grpc-message:\\s*([^\\r\\n]+)/` and
`decodeURIComponent` over the decoded trailer text. -/

/-- `hay.includes(needle)`. -/
def containsSub : Str → Str → Bool
  | hay, needle =>
    if needle.isPrefixOf hay then true
    else
      match hay with
      | [] => false
      | _ :: t => containsSub t needle

/-- JavaScript regex `\\s` class membership. -/
def isJsWhitespace (c : Char) : Bool :=
  c.toNat = 0x9 || c.toNat = 0xA || c.toNat = 0xB || c.toNat = 0xC || c.toNat = 0xD ||
  c.toNat = 0x20 || c.toNat = 0xA0 || c.toNat = 0x1680 ||
  (0x2000 ≤ c.toNat && c.toNat ≤ 0x200A) ||
  c.toNat = 0x2028 || c.toNat = 0x2029 || c.toNat = 0x202F || c.toNat = 0x205F ||
  c.toNat = 0x3000 || c.toNat = 0xFEFF

def notCrLf (c : Char) : Bool := !(c = Char.ofNat 0xD || c = Char.ofNat 0xA)

/-- Greedy backtracking of `\\s*` before `([^\\r\\n]+)`: having consumed `k`
whitespace characters, the capture is the maximal run of non-CR/LF characters
that follows, and must be non-empty; on failure give one whitespace character
back. -/
def captureBacktrack (rest : Str) : Nat → Option Str
  | 0 =>
    if rest.takeWhile notCrLf = [] then none else some (rest.takeWhile notCrLf)
  | k + 1 =>
    if (rest.drop (k + 1)).takeWhile notCrLf = [] then captureBacktrack rest k
    else some ((rest.drop (k + 1)).takeWhile notCrLf)

/-- The first match of `/grpc-message:\\s*([^\\r\\n]+)/`: at each position, the
literal followed by greedily backtracked whitespace and a non-empty run of
non-CR/LF characters; the capture group of the first position that matches. -/
def grpcMessageCapture : Str → Option Str
  | [] => none
  | l@(_ :: t) =>
    if (strL "grpc-message:").isPrefixOf l then
      match captureBacktrack (l.drop 13) ((l.drop 13).takeWhile isJsWhitespace).length with
      | some cap => some cap
      | none => grpcMessageCapture t
    else grpcMessageCapture t

def hexVal (c : Char) : Option Nat :=
  if '0' ≤ c && c ≤ '9' then some (c.toNat - 48)
  else if 'a' ≤ c && c ≤ 'f' then some (c.toNat - 87)
  else if 'A' ≤ c && c ≤ 'F' then some (c.toNat - 70)
  else none

/-- `decodeURIComponent`, phase 1: every `%XX` escape becomes the byte `XX`
and every other character becomes its UTF-8 bytes; a `%` not followed by two
hex digits is a `URIError` (`none`). -/
def percentDecodeBytes : Str → Option (List Nat)
  | [] => some []
  | '%' :: a :: b :: rest =>
    match hexVal a, hexVal b with
    | some h, some l => (percentDecodeBytes rest).map ((16 * h + l) :: ·)
    | _, _ => none
  | '%' :: _ => none
  | c :: rest => (percentDecodeBytes rest).map (utf8EncodeChar c ++ ·)

/-- `decodeURIComponent`: escape sequences must decode (together with the
pass-through characters, whose own UTF-8 bytes always do) as valid UTF-8,
else a `URIError` (`none`). -/
def decodeUriComponent (s : Str) : Option Str :=
  (percentDecodeBytes s).bind utf8Decode

/-! ## Host functions of the session model

`chatStream` calls a few functions whose code is not among the staged source
files; the model takes them as parameters and the theorems hold for every
instance. -/

structure ParsedToolCallBody where
  toolType : Str
  name : Str
  /-- `JSON.stringify(parsed.toolCall.arguments)` as computed by the caller. -/
  argumentsJson : Str
  deriving DecidableEq, Repr

structure ParsedToolCallStarted where
  callId : Str
  modelCallId : Str
  toolCall : Option ParsedToolCallBody
  deriving DecidableEq, Repr

structure ParsedPartialToolCall where
  callId : Str
  argsTextDelta : Str
  deriving DecidableEq, Repr

/-- Modelled from the spec: the host builtins and the missing modules of this
repository that `chatStream` calls. `jsonParse` is the JavaScript `JSON.parse`
builtin (`none` for a parse exception); `parseToolCallStartedUpdate` and
`parsePartialToolCallUpdate` are the missing `proto/tool-calls.ts` module
(the spec fixes only their interfaces, and the model folds the caller's
`JSON.stringify` of the arguments into `argumentsJson`);
`parseExecServerMessage` is the missing exec-message parser, of which only
"returns a parsed request or null" matters here (the request's payload is
irrelevant to every claim, so it is erased to `Unit`). -/
structure HostFns where
  jsonParse : Str → Option Json
  parseToolCallStartedUpdate : List Nat → ParsedToolCallStarted
  parsePartialToolCallUpdate : List Nat → ParsedPartialToolCall
  parseExecServerMessage : List Nat → Option Unit

/-! ## `parseInteractionUpdate` (the private method of `AgentServiceClient`) -/

structure ToolCallInfo where
  callId : Str
  modelCallId : Str
  toolType : Str
  name : Str
  arguments : Str
  deriving DecidableEq, Repr

structure ParsedInteractionUpdate where
  text : Option Str
  isComplete : Bool
  isHeartbeat : Bool
  toolCallStarted : Option ToolCallInfo
  toolCallCompleted : Option ToolCallInfo
  partialToolCall : Option ParsedPartialToolCall
  deriving DecidableEq, Repr

def emptyInteractionUpdate : ParsedInteractionUpdate :=
  { text := none, isComplete := false, isHeartbeat := false,
    toolCallStarted := none, toolCallCompleted := none, partialToolCall := none }

/-- The text assignment of the `text_delta` / `token_delta` branches: each
inner field 1 overwrites `text` with the (lossy) UTF-8 decoding of its bytes. -/
def textFromInner (start : Option Str) (inner : List ProtoField) : Option Str :=
  inner.foldl (fun t g =>
    match g.fieldNumber, g.wireType, g.value with
    | 1, 2, .bytes tb => some (utf8DecodeLossy tb)
    | _, _, _ => t) start

/-- The field loop of `parseInteractionUpdate`: fields 1/8 carry text (their
inner `parseProtoFields` may throw, aborting the whole parse), 2/3 tool-call
started/completed via the tool-call parser, 7 a partial tool call, 14 marks
turn end and 13 a heartbeat (both by presence, any wire type). -/
def iuFieldLoop (ext : HostFns) (r : ParsedInteractionUpdate) :
    List ProtoField → Option ParsedInteractionUpdate
  | [] => some r
  | f :: fs =>
    match f.fieldNumber, f.wireType, f.value with
    | 1, 2, .bytes b =>
      match parseProtoFields b with
      | none => none
      | some inner => iuFieldLoop ext { r with text := textFromInner r.text inner } fs
    | 8, 2, .bytes b =>
      match parseProtoFields b with
      | none => none
      | some inner => iuFieldLoop ext { r with text := textFromInner r.text inner } fs
    | 2, 2, .bytes b =>
      let p := ext.parseToolCallStartedUpdate b
      iuFieldLoop ext (match p.toolCall with
        | some tc =>
          let info : ToolCallInfo := ⟨p.callId, p.modelCallId, tc.toolType, tc.name, tc.argumentsJson⟩
          { r with toolCallStarted := some info }
        | none => r) fs
    | 3, 2, .bytes b =>
      let p := ext.parseToolCallStartedUpdate b
      iuFieldLoop ext (match p.toolCall with
        | some tc =>
          let info : ToolCallInfo := ⟨p.callId, p.modelCallId, tc.toolType, tc.name, tc.argumentsJson⟩
          { r with toolCallCompleted := some info }
        | none => r) fs
    | 7, 2, .bytes b =>
      iuFieldLoop ext { r with partialToolCall := some (ext.parsePartialToolCallUpdate b) } fs
    | 14, _, _ => iuFieldLoop ext { r with isComplete := true } fs
    | 13, _, _ => iuFieldLoop ext { r with isHeartbeat := true } fs
    | _, _, _ => iuFieldLoop ext r fs

def parseInteractionUpdate (ext : HostFns) (data : List Nat) :
    Option ParsedInteractionUpdate :=
  (parseProtoFields data).bind (iuFieldLoop ext emptyInteractionUpdate)

/-! ## Assistant-content extraction from blobs

`extractAssistantContent` (kv-messages); the inline logic of the set-blob
branch of `handleKvMessage` in agent-service pushes exactly the same entries
(its extra branches only log). -/

structure AssistantBlobContent where
  blobId : Str
  content : Str
  deriving DecidableEq, Repr

/-- JavaScript property access on a parsed JSON object. -/
def jsonLookup (j : Json) (key : Str) : Option Json :=
  match j with
  | .obj fields => (fields.find? (fun kv => kv.1 == key)).map (fun kv => kv.2)
  | _ => none

def startsWithChar (s : Str) (c : Char) : Bool :=
  match s with
  | x :: _ => x == c
  | [] => false

/-- One content part: a plain string, or `{ type: "text", text: ... }`. -/
def partText (p : Json) : Option Str :=
  match p with
  | .str s => some s
  | .obj fields =>
    match jsonLookup (.obj fields) (strL "type"), jsonLookup (.obj fields) (strL "text") with
    | some (.str ty), some (.str tx) => if ty == strL "text" then some tx else none
    | _, _ => none
  | _ => none

def natDigits (n : Nat) : Str := strL (Nat.repr n)

def extractAssistantContent (ba : BlobAnalysis) (blobKey : Str) : List AssistantBlobContent :=
  if ba.type = .json then
    match ba.json with
    | some j =>
      (match jsonLookup j (strL "role") with
       | some (.str role) =>
         if role == strL "assistant" then
           match jsonLookup j (strL "content") with
           | some (.str c) =>
             if c ≠ [] then [{ blobId := blobKey, content := c }] else []
           | some (.arr parts) =>
             parts.filterMap (fun p =>
               (partText p).map (fun tx => { blobId := blobKey, content := tx }))
           | _ => []
         else []
       | _ => []) ++
      (match jsonLookup j (strL "messages") with
       | some (.arr msgs) =>
         msgs.filterMap (fun m =>
           match jsonLookup m (strL "role"), jsonLookup m (strL "content") with
           | some (.str r), some (.str c) =>
             if r == strL "assistant" then some { blobId := blobKey, content := c } else none
           | _, _ => none)
       | _ => [])
    | none => []
  else if ba.type = .protobuf then
    match ba.protoFields with
    | some pfs =>
      pfs.filterMap (fun f =>
        match f.text with
        | some t =>
          if 50 < utf16Length t && !(startsWithChar t (Char.ofNat 123))
              && !(startsWithChar t (Char.ofNat 91)) then
            some { blobId := blobKey ++ strL ":f" ++ natDigits f.num, content := t }
          else none
        | none => none)
    | none => []
  else []

/-! ## The `chatStream` session model

The inner loop of `AgentServiceClient.chatStream`, as a pure state machine
over the sequence of inbound frames interleaved with the external
`send*Result` calls.  A frame is `(Date.now(), flags, payload)`; a
`toolResult` event is one of the `sendToolResult`/`sendShellResult`/... calls
(each sends the result append and the stream-close append, reserving two
values of `this.currentAppendSeqno`).  The outbound `BidiAppend` calls appear
as the list of `append_seqno` values they carry, in send order. -/

inductive QueryType
  | unknown
  | webSearch
  | askQuestion
  | switchMode
  | exaSearch
  | exaFetch
  deriving DecidableEq, Repr

inductive Chunk
  | text (content : Str)
  | toolCallStarted (info : ToolCallInfo)
  | toolCallCompleted (info : ToolCallInfo)
  | partialToolCall (callId : Str) (partialArgs : Str)
  | execRequest
  | checkpoint
  | heartbeat
  | interactionQuery (queryId : Nat) (queryType : QueryType)
  | execServerAbort
  | error (msg : Str)
  | errorParse (fieldNumber : Nat)
  | fatalError
  | kvBlobAssistant (content : Str)
  | done
  deriving DecidableEq, Repr

structure SessionState where
  /-- the generator-local `appendSeqno` variable. -/
  localSeq : Nat
  /-- the instance field `this.currentAppendSeqno`. -/
  currentSeq : Nat
  /-- the `append_seqno` values of the `bidiAppend` calls issued so far. -/
  seqnos : List Nat
  /-- the chunks yielded so far. -/
  chunks : List Chunk
  /-- `this.blobStore` (hex key → bytes, later writes shadow earlier ones). -/
  blobStore : List (Str × List Nat)
  /-- `this.pendingAssistantBlobs`. -/
  pendingAssistantBlobs : List AssistantBlobContent
  lastProgressAt : Nat
  heartbeatSinceProgress : Nat
  hasProgress : Bool
  hasStreamedText : Bool
  turnEnded : Bool
  /-- an exception escaped to the outer catch; the generator is finished. -/
  fatal : Bool
  deriving DecidableEq, Repr

def pushChunk (s : SessionState) (c : Chunk) : SessionState :=
  { s with chunks := s.chunks ++ [c] }

def markProgress (t : Nat) (s : SessionState) : SessionState :=
  { s with heartbeatSinceProgress := 0, lastProgressAt := t, hasProgress := true }

def HEARTBEAT_IDLE_MS_PROGRESS : Nat := 120000
def HEARTBEAT_MAX_PROGRESS : Nat := 1000
def HEARTBEAT_IDLE_MS_NOPROGRESS : Nat := 180000
def HEARTBEAT_MAX_NOPROGRESS : Nat := 1000

/-- `Buffer.from(blobId).toString('hex')`. -/
def hexDigitChar (n : Nat) : Char :=
  if n < 10 then Char.ofNat (48 + n) else Char.ofNat (87 + n)

def blobIdToKey (blobId : List Nat) : Str :=
  (blobId.map (fun b => [hexDigitChar (b / 16 % 16), hexDigitChar (b % 16)])).flatten

/-- `handleKvMessage`: a `get_blob_args` with a blob id replies (one append at
the passed-in generator-local seqno) and returns seqno + 1; a `set_blob_args`
with id and data stores the blob, analyses it, pushes any recovered assistant
content, replies and returns seqno + 1; anything else replies nothing and
returns the seqno unchanged. -/
def handleKvMessage (ext : HostFns) (s : SessionState) (kv : KvServerMessage) :
    SessionState :=
  match kv.messageType, kv.blobId, kv.blobData with
  | .getBlobArgs, some _, _ =>
    { s with seqnos := s.seqnos ++ [s.localSeq], localSeq := s.localSeq + 1 }
  | .setBlobArgs, some bid, some bd =>
    let key := blobIdToKey bid
    { s with
      blobStore := (key, bd) :: s.blobStore.filter (fun kvp => !(kvp.1 == key))
      pendingAssistantBlobs := s.pendingAssistantBlobs
        ++ extractAssistantContent (analyzeBlobData ext.jsonParse bd) key
      seqnos := s.seqnos ++ [s.localSeq]
      localSeq := s.localSeq + 1 }
  | _, _, _ => s

/-- Text handling of the `interaction_update` branch: `if (parsed.text)`,
so empty text is falsy and yields nothing; otherwise yield the text chunk,
set `hasStreamedText` and mark progress. -/
def textStage (t : Nat) (s : SessionState) (o : Option Str) : SessionState :=
  match o with
  | some txt =>
    if txt = [] then s
    else markProgress t { pushChunk s (.text txt) with hasStreamedText := true }
  | none => s

def toolStartedStage (t : Nat) (s : SessionState) (o : Option ToolCallInfo) : SessionState :=
  match o with
  | some info => markProgress t (pushChunk s (.toolCallStarted info))
  | none => s

def toolCompletedStage (t : Nat) (s : SessionState) (o : Option ToolCallInfo) : SessionState :=
  match o with
  | some info => markProgress t (pushChunk s (.toolCallCompleted info))
  | none => s

def partialStage (t : Nat) (s : SessionState) (o : Option ParsedPartialToolCall) :
    SessionState :=
  match o with
  | some pc => markProgress t (pushChunk s (.partialToolCall pc.callId pc.argsTextDelta))
  | none => s

/-- `if (parsed.isComplete) turnEnded = true`. -/
def completeStage (s : SessionState) (isComplete : Bool) : SessionState :=
  if isComplete then { s with turnEnded := true } else s

/-- The heartbeat accounting: increment the counter, then close the turn when
the beat budget or the phase's idle limit is reached, else yield a heartbeat
chunk. -/
def heartbeatStage (t : Nat) (s : SessionState) (isHeartbeat : Bool) : SessionState :=
  if isHeartbeat then
    let beats := s.heartbeatSinceProgress + 1
    let idleMs := t - s.lastProgressAt
    let idleLimit := if s.hasProgress then HEARTBEAT_IDLE_MS_PROGRESS
      else HEARTBEAT_IDLE_MS_NOPROGRESS
    let beatLimit := if s.hasProgress then HEARTBEAT_MAX_PROGRESS
      else HEARTBEAT_MAX_NOPROGRESS
    if beatLimit ≤ beats ∨ idleLimit ≤ idleMs then
      { s with heartbeatSinceProgress := beats, turnEnded := true }
    else pushChunk { s with heartbeatSinceProgress := beats } .heartbeat
  else s

/-- The `interaction_update` handling of the demux loop, in the statement
order of the code: text, tool-call started, completed, partial, `turn_ended`,
heartbeat. -/
def handleInteraction (t : Nat) (s : SessionState) (p : ParsedInteractionUpdate) :
    SessionState :=
  heartbeatStage t
    (completeStage
      (partialStage t
        (toolCompletedStage t
          (toolStartedStage t (textStage t s p.text) p.toolCallStarted)
          p.toolCallCompleted)
        p.partialToolCall)
      p.isComplete)
    p.isHeartbeat

/-- The inner loop of the `exec_server_control_message` branch: each field 1
parses its payload for logging (a throw escapes to the per-field catch, so
the chunks yielded so far stay and the `markProgress` after the loop is
skipped) and yields an abort chunk. -/
def abortFieldLoop (s : SessionState) : List ProtoField → SessionState × Bool
  | [] => (s, true)
  | cf :: rest =>
    match cf.fieldNumber, cf.wireType, cf.value with
    | 1, 2, .bytes b =>
      match parseProtoFields b with
      | none => (s, false)
      | some _ => abortFieldLoop (pushChunk s .execServerAbort) rest
    | _, _, _ => abortFieldLoop s rest

/-- The `interaction_query` field loop computing `(queryId, queryType)`. -/
def queryInfo (qfs : List ProtoField) : Nat × QueryType :=
  qfs.foldl (fun acc qf =>
    match qf.fieldNumber, qf.wireType, qf.value with
    | 1, 0, .nat v => (v, acc.2)
    | 2, 2, _ => (acc.1, .webSearch)
    | 3, 2, _ => (acc.1, .askQuestion)
    | 4, 2, _ => (acc.1, .switchMode)
    | 5, 2, _ => (acc.1, .exaSearch)
    | 6, 2, _ => (acc.1, .exaFetch)
    | _, _, _ => acc) (0, QueryType.unknown)

/-- One field of an `AgentServerMessage`, inside the per-field try/catch
(`.errorParse n` is the error chunk the catch yields). -/
def processServerField (ext : HostFns) (t : Nat) (s : SessionState) (f : ProtoField) :
    SessionState :=
  match f.fieldNumber, f.wireType, f.value with
  | 1, 2, .bytes data =>
    match parseInteractionUpdate ext data with
    | none => pushChunk s (.errorParse 1)
    | some p => handleInteraction t s p
  | 3, 2, .bytes data =>
    match parseProtoFields data with
    | none => pushChunk s (.errorParse 3)
    | some _ => markProgress t (pushChunk s .checkpoint)
  | 2, 2, .bytes data =>
    match ext.parseExecServerMessage data with
    | some _ => markProgress t (pushChunk s .execRequest)
    | none => s
  | 4, 2, .bytes data =>
    match parseKvServerMessage data with
    | none => pushChunk s (.errorParse 4)
    | some kv =>
      let s1 := handleKvMessage ext s kv
      { s1 with currentSeq := s1.localSeq }
  | 5, 2, .bytes data =>
    match parseProtoFields data with
    | none => pushChunk s (.errorParse 5)
    | some cfs =>
      if (abortFieldLoop s cfs).2 then markProgress t (abortFieldLoop s cfs).1
      else pushChunk (abortFieldLoop s cfs).1 (.errorParse 5)
  | 7, 2, .bytes data =>
    match parseProtoFields data with
    | none => pushChunk s (.errorParse 7)
    | some qfs =>
      markProgress t (pushChunk s (.interactionQuery (queryInfo qfs).1 (queryInfo qfs).2))
  | _, _, _ => s

/-- One inbound frame: a trailer frame (`flags & 0x80`) checks for a non-zero
`grpc-status` and yields the URL-decoded `grpc-message` as an error chunk (a
`URIError` escapes to the outer catch: error chunk, generator finished);
a data frame parses the `AgentServerMessage` (a throw here is also outer,
fatal) and runs every field through the per-field handler. -/
def processFrame (ext : HostFns) (t : Nat) (s : SessionState)
    (flags : Nat) (payload : List Nat) : SessionState :=
  if flags &&& 0x80 ≠ 0 then
    let trailer := utf8DecodeLossy payload
    if containsSub trailer (strL "grpc-status:")
        && !(containsSub trailer (strL "grpc-status: 0")) then
      match decodeUriComponent ((grpcMessageCapture trailer).getD (strL "Unknown gRPC error")) with
      | some msg => pushChunk s (.error msg)
      | none => { s with chunks := s.chunks ++ [.fatalError], fatal := true }
    else s
  else
    match parseProtoFields payload with
    | none => { s with chunks := s.chunks ++ [.fatalError], fatal := true }
    | some fields => fields.foldl (processServerField ext t) s

inductive SessionEvent
  | frame (t flags : Nat) (payload : List Nat)
  | toolResult
  deriving DecidableEq, Repr

/-- One event of a session run.  After `turn_ended` the loop reads no more
frames, and after a fatal error the generator is finished (`sendXResult`
would also throw, `this.currentRequestId` being cleared in the finally). -/
def stepEvent (ext : HostFns) (s : SessionState) (e : SessionEvent) : SessionState :=
  if s.turnEnded || s.fatal then s
  else
    match e with
    | .frame t flags payload => processFrame ext t s flags payload
    | .toolResult =>
      { s with
        seqnos := s.seqnos ++ [s.currentSeq, s.currentSeq + 1]
        currentSeq := s.currentSeq + 2 }

/-- The state right after the initial `bidiAppend(requestId, appendSeqno++,
messageBody)` and `this.currentAppendSeqno = appendSeqno`:   seqno 0 sent,
both counters at 1, the idle tracker initialised at `t0`. -/
def initSession (t0 : Nat) : SessionState :=
  { localSeq := 1, currentSeq := 1, seqnos := [0], chunks := [],
    blobStore := [], pendingAssistantBlobs := [],
    lastProgressAt := t0, heartbeatSinceProgress := 0, hasProgress := false,
    hasStreamedText := false, turnEnded := false, fatal := false }

def processEvents (ext : HostFns) (t0 : Nat) (events : List SessionEvent) : SessionState :=
  events.foldl (stepEvent ext) (initSession t0)

/-- The epilogue after `turn_ended`: when no text was streamed but assistant
blobs were recovered, they are yielded in recording order before `done`. -/
def recoveryChunks (s : SessionState) : List Chunk :=
  if !s.hasStreamedText && !(s.pendingAssistantBlobs == []) then
    s.pendingAssistantBlobs.map (fun b => Chunk.kvBlobAssistant b.content)
  else []

/-- The full chunk sequence of a session whose inbound stream delivers
`events` and then ends: after a fatal error the generator stops where it is;
after `turn_ended` the recovery chunks and `done`; otherwise the reader sees
the end of the stream and yields `done`. -/
def chatStreamModel (ext : HostFns) (t0 : Nat) (events : List SessionEvent) : List Chunk :=
  let s := processEvents ext t0 events
  if s.fatal then s.chunks
  else if s.turnEnded then s.chunks ++ recoveryChunks s ++ [.done]
  else s.chunks ++ [.done]

/-! ## Concrete hosts and frames used by the theorems -/

def trivialHost : HostFns :=
  { jsonParse := fun _ => none
    parseToolCallStartedUpdate := fun _ => { callId := [], modelCallId := [], toolCall := none }
    parsePartialToolCallUpdate := fun _ => { callId := [], argsTextDelta := [] }
    parseExecServerMessage := fun _ => none }

/-- An `AgentServerMessage { kv_server_message { id: 7, set_blob_args
{ blob_id: 01, blob_data: "x" } } }` frame payload. -/
def kvSetFramePayload : List Nat :=
  encodeMessageField 4 (concatBytes [encodeUint32Field 1 7,
    encodeMessageField 3 (concatBytes [encodeMessageField 1 [1], encodeMessageField 2 [120]])])

/-- The interleaving of C1's counterexample: one KV reply, one tool-result
pair, one more KV reply. -/
def seqnoBugEvents : List SessionEvent :=
  [.frame 0 0 kvSetFramePayload, .toolResult, .frame 0 0 kvSetFramePayload]

/-- C1: the outbound `append_seqno` sequence is NOT always `0, 1, 2, …`.  The
KV replies advance the generator-local `appendSeqno` while the tool-result
sends advance only `this.currentAppendSeqno`, so a KV reply that follows a
tool-result pair reuses an already-sent seqno: the run
`run_request, kv reply, tool result + stream close, kv reply` puts
`0, 1, 2, 3, 2` on the wire instead of `0, 1, 2, 3, 4`. -/
theorem append_seqno_gap_C1 :
    (processEvents trivialHost 0 seqnoBugEvents).seqnos = [0, 1, 2, 3, 2] ∧
    (processEvents trivialHost 0 seqnoBugEvents).seqnos ≠ List.range 5 := by decide

/-- The trailer branch of the demux loop in isolation: a trailer frame whose
decoded text carries a non-zero `grpc-status` yields exactly one error chunk,
carrying the URL-decoded `grpc-message` capture, and changes nothing else. -/
theorem trailerStep (ext : HostFns) (s : SessionState) (t flags : Nat)
    (payload : List Nat) (m d : Str)
    (hTurn : s.turnEnded = false) (hFatal : s.fatal = false)
    (hFlags : flags &&& 0x80 ≠ 0)
    (hStatus : containsSub (utf8DecodeLossy payload) (strL "grpc-status:") = true)
    (hNotZero : containsSub (utf8DecodeLossy payload) (strL "grpc-status: 0") = false)
    (hCap : grpcMessageCapture (utf8DecodeLossy payload) = some m)
    (hDec : decodeUriComponent m = some d) :
    stepEvent ext s (.frame t flags payload)
      = { s with chunks := s.chunks ++ [Chunk.error d] } := by
  unfold stepEvent
  rw [hTurn, hFatal]
  simp only [Bool.or_self, Bool.false_eq_true, if_false]
  unfold processFrame
  rw [if_pos hFlags]
  simp only [hStatus, hNotZero, Bool.not_false, Bool.and_self, if_true]
  rw [hCap]
  simp only [Option.getD_some]
  rw [hDec]
  simp [pushChunk, hTurn, hFatal]

/-- C3: a trailer frame (`flags & 0x80`) whose body carries a non-zero
`grpc-status` yields a protocol-error chunk whose message is the URL-decoded
`grpc-message` value, and the session then closes on the end of the inbound
stream with `turnEnded` still false: no turn-end is observed, no recovery
epilogue runs, the stream just ends (the plain end-of-stream `done`). -/
theorem trailer_error_C3 (ext : HostFns) (t0 : Nat) (s : SessionState)
    (t flags : Nat) (payload : List Nat) (m d : Str) (events : List SessionEvent)
    (hTurn : s.turnEnded = false) (hFatal : s.fatal = false)
    (hFlags : flags &&& 0x80 ≠ 0)
    (hStatus : containsSub (utf8DecodeLossy payload) (strL "grpc-status:") = true)
    (hNotZero : containsSub (utf8DecodeLossy payload) (strL "grpc-status: 0") = false)
    (hCap : grpcMessageCapture (utf8DecodeLossy payload) = some m)
    (hDec : decodeUriComponent m = some d) :
    stepEvent ext s (.frame t flags payload)
      = { s with chunks := s.chunks ++ [Chunk.error d] } ∧
    ((processEvents ext t0 events).turnEnded = false →
     (processEvents ext t0 events).fatal = false →
     chatStreamModel ext t0 (events ++ [.frame t flags payload])
       = (processEvents ext t0 events).chunks ++ [Chunk.error d, Chunk.done] ∧
     (processEvents ext t0 (events ++ [.frame t flags payload])).turnEnded = false) := by
  refine ⟨trailerStep ext s t flags payload m d hTurn hFatal hFlags hStatus hNotZero hCap hDec,
    fun hT hF => ?_⟩
  have hfold : processEvents ext t0 (events ++ [.frame t flags payload])
      = stepEvent ext (processEvents ext t0 events) (.frame t flags payload) := by
    unfold processEvents
    rw [List.foldl_append]
    rfl
  have hstep := trailerStep ext (processEvents ext t0 events) t flags payload m d
    hT hF hFlags hStatus hNotZero hCap hDec
  constructor
  · unfold chatStreamModel
    rw [hfold, hstep]
    simp [hT, hF, List.append_assoc]
  · rw [hfold, hstep]
    exact hT

def trailerPayloadS6 : List Nat :=
  utf8Encode (strL "grpc-status: 13\r\ngrpc-message: foo%20bar\r\n")

theorem trailer_error_C3_witness :
    chatStreamModel trivialHost 0 [SessionEvent.frame 5 128 trailerPayloadS6]
      = [Chunk.error (strL "foo bar"), Chunk.done] := by
  have h := (trailer_error_C3 trivialHost 0 (initSession 0) 5 128 trailerPayloadS6
      (strL "foo%20bar") (strL "foo bar") [] rfl rfl (by decide) (by decide) (by decide)
      (by decide) (by decide)).2 rfl rfl
  rw [show ([] : List SessionEvent) ++ [SessionEvent.frame 5 128 trailerPayloadS6]
      = [SessionEvent.frame 5 128 trailerPayloadS6] from rfl] at h
  exact h.1.trans (by decide)

/-! ## Heartbeat / idle policy frames -/

/-- `InteractionUpdate { heartbeat }` inside `AgentServerMessage` field 1. -/
def heartbeatFramePayload : List Nat := encodeMessageField 1 (encodeUint32Field 13 1)

/-- `InteractionUpdate { text_delta { "hi" } }`. -/
def textFramePayload : List Nat :=
  encodeMessageField 1 (encodeMessageField 1 (encodeStringField 1 (strL "hi")))

def checkpointFramePayload : List Nat := encodeMessageField 3 []

def queryFramePayload : List Nat := encodeMessageField 7 []

/-- `ExecServerControlMessage { abort {} }` inside field 5. -/
def abortFramePayload : List Nat := encodeMessageField 5 (encodeMessageField 1 [])

/-- `InteractionUpdate { partial_tool_call {} }`. -/
def partialFramePayload : List Nat := encodeMessageField 1 (encodeMessageField 7 [])

/-- `InteractionUpdate { tool_call_started {} }`. -/
def toolStartFramePayload : List Nat := encodeMessageField 1 (encodeMessageField 2 [])

def execFramePayload : List Nat := encodeMessageField 2 []

/-- The idle tracker was just reset at time `t`. -/
def resetsIdle (t : Nat) (s : SessionState) : Prop :=
  s.heartbeatSinceProgress = 0 ∧ s.lastProgressAt = t ∧ s.hasProgress = true

/-- C4: on each inbound heartbeat the session increments
`heartbeats_since_progress`, and is force-closed as if `turn_ended` exactly
when that count reaches 1000 or the idle time since the last progress reaches
180000 ms before any progress (120000 ms after the first), else a heartbeat
chunk is yielded; and a text, checkpoint, query, abort or partial-tool-call
event — and a tool-call or exec event whenever their (missing-module) parsers
recognise the payload — resets the counter and the idle clock. -/
theorem heartbeat_policy_C4 (ext : HostFns) (s : SessionState) (t : Nat)
    (hTurn : s.turnEnded = false) (hFatal : s.fatal = false) :
    ((stepEvent ext s (.frame t 0 heartbeatFramePayload)).heartbeatSinceProgress
        = s.heartbeatSinceProgress + 1) ∧
    ((stepEvent ext s (.frame t 0 heartbeatFramePayload)).turnEnded = true ↔
      (1000 ≤ s.heartbeatSinceProgress + 1 ∨
       (if s.hasProgress then 120000 else 180000) ≤ t - s.lastProgressAt)) ∧
    (¬ (1000 ≤ s.heartbeatSinceProgress + 1 ∨
        (if s.hasProgress then 120000 else 180000) ≤ t - s.lastProgressAt) →
      (stepEvent ext s (.frame t 0 heartbeatFramePayload)).chunks
        = s.chunks ++ [Chunk.heartbeat]) ∧
    resetsIdle t (stepEvent ext s (.frame t 0 textFramePayload)) ∧
    resetsIdle t (stepEvent ext s (.frame t 0 checkpointFramePayload)) ∧
    resetsIdle t (stepEvent ext s (.frame t 0 queryFramePayload)) ∧
    resetsIdle t (stepEvent ext s (.frame t 0 abortFramePayload)) ∧
    resetsIdle t (stepEvent ext s (.frame t 0 partialFramePayload)) ∧
    ((ext.parseExecServerMessage []).isSome →
      resetsIdle t (stepEvent ext s (.frame t 0 execFramePayload))) ∧
    ((ext.parseToolCallStartedUpdate []).toolCall.isSome →
      resetsIdle t (stepEvent ext s (.frame t 0 toolStartFramePayload))) := by
  have hguard : (s.turnEnded || s.fatal) = false := by rw [hTurn, hFatal]; rfl
  have hhb : parseProtoFields heartbeatFramePayload
      = some [⟨1, 2, .bytes [104, 1]⟩] := by decide
  have hhbIU : parseInteractionUpdate ext [104, 1]
      = some (ParsedInteractionUpdate.mk none false true none none none) := rfl
  have hbStep : stepEvent ext s (.frame t 0 heartbeatFramePayload)
      = handleInteraction t s (ParsedInteractionUpdate.mk none false true none none none) := by
    simp only [stepEvent, hguard, Bool.false_eq_true, if_false]
    simp only [processFrame, if_neg (show ¬ ((0 : Nat) &&& 0x80 ≠ 0) by decide), hhb]
    simp only [List.foldl_cons, List.foldl_nil, processServerField, hhbIU]
  have hbVal : handleInteraction t s (ParsedInteractionUpdate.mk none false true none none none)
      = (if (if s.hasProgress then HEARTBEAT_MAX_PROGRESS else HEARTBEAT_MAX_NOPROGRESS)
            ≤ s.heartbeatSinceProgress + 1 ∨
          (if s.hasProgress then HEARTBEAT_IDLE_MS_PROGRESS else HEARTBEAT_IDLE_MS_NOPROGRESS)
            ≤ t - s.lastProgressAt then
        { s with heartbeatSinceProgress := s.heartbeatSinceProgress + 1, turnEnded := true }
      else pushChunk { s with heartbeatSinceProgress := s.heartbeatSinceProgress + 1 }
        .heartbeat) := by
    unfold handleInteraction textStage toolStartedStage toolCompletedStage partialStage
      completeStage heartbeatStage
    rfl
  have hlimits :
      ((if s.hasProgress then HEARTBEAT_MAX_PROGRESS else HEARTBEAT_MAX_NOPROGRESS)
          ≤ s.heartbeatSinceProgress + 1 ∨
        (if s.hasProgress then HEARTBEAT_IDLE_MS_PROGRESS else HEARTBEAT_IDLE_MS_NOPROGRESS)
          ≤ t - s.lastProgressAt) ↔
      (1000 ≤ s.heartbeatSinceProgress + 1 ∨
        (if s.hasProgress then 120000 else 180000) ≤ t - s.lastProgressAt) := by
    simp only [HEARTBEAT_MAX_PROGRESS, HEARTBEAT_MAX_NOPROGRESS,
      HEARTBEAT_IDLE_MS_PROGRESS, HEARTBEAT_IDLE_MS_NOPROGRESS, ite_self]
  refine ⟨?_, ?_, ?_, ?_, ?_, ?_, ?_, ?_, ?_, ?_⟩
  · rw [hbStep, hbVal]
    by_cases hcond : ((if s.hasProgress then HEARTBEAT_MAX_PROGRESS
          else HEARTBEAT_MAX_NOPROGRESS) ≤ s.heartbeatSinceProgress + 1 ∨
        (if s.hasProgress then HEARTBEAT_IDLE_MS_PROGRESS
          else HEARTBEAT_IDLE_MS_NOPROGRESS) ≤ t - s.lastProgressAt)
    · rw [if_pos hcond]
    · rw [if_neg hcond]
      rfl
  · rw [hbStep, hbVal]
    by_cases hcond : ((if s.hasProgress then HEARTBEAT_MAX_PROGRESS
          else HEARTBEAT_MAX_NOPROGRESS) ≤ s.heartbeatSinceProgress + 1 ∨
        (if s.hasProgress then HEARTBEAT_IDLE_MS_PROGRESS
          else HEARTBEAT_IDLE_MS_NOPROGRESS) ≤ t - s.lastProgressAt)
    · rw [if_pos hcond]
      exact ⟨fun _ => hlimits.mp hcond, fun _ => rfl⟩
    · rw [if_neg hcond]
      constructor
      · intro hfalse
        have : s.turnEnded = true := hfalse
        rw [hTurn] at this
        exact absurd this (by simp)
      · intro h
        exact absurd (hlimits.mpr h) hcond
  · intro h
    rw [hbStep, hbVal, if_neg (fun hc => h (hlimits.mp hc))]
    rfl
  · have hp : parseProtoFields textFramePayload
        = some [⟨1, 2, .bytes [10, 4, 10, 2, 104, 105]⟩] := by decide
    have hiu : parseInteractionUpdate ext [10, 4, 10, 2, 104, 105]
        = some (ParsedInteractionUpdate.mk (some (strL "hi")) false false none none none) := rfl
    simp only [stepEvent, hguard, Bool.false_eq_true, if_false]
    simp only [processFrame, if_neg (show ¬ ((0 : Nat) &&& 0x80 ≠ 0) by decide), hp]
    simp only [List.foldl_cons, List.foldl_nil, processServerField, hiu]
    simp [handleInteraction, textStage, toolStartedStage, toolCompletedStage, partialStage,
      completeStage, heartbeatStage, markProgress, resetsIdle, strL]
  · have hp : parseProtoFields checkpointFramePayload = some [⟨3, 2, .bytes []⟩] := by decide
    simp only [stepEvent, hguard, Bool.false_eq_true, if_false]
    simp only [processFrame, if_neg (show ¬ ((0 : Nat) &&& 0x80 ≠ 0) by decide), hp]
    simp only [List.foldl_cons, List.foldl_nil, processServerField,
      show parseProtoFields ([] : List Nat) = some [] from rfl]
    simp [markProgress, resetsIdle]
  · have hp : parseProtoFields queryFramePayload = some [⟨7, 2, .bytes []⟩] := by decide
    simp only [stepEvent, hguard, Bool.false_eq_true, if_false]
    simp only [processFrame, if_neg (show ¬ ((0 : Nat) &&& 0x80 ≠ 0) by decide), hp]
    simp only [List.foldl_cons, List.foldl_nil, processServerField,
      show parseProtoFields ([] : List Nat) = some [] from rfl]
    simp [markProgress, resetsIdle]
  · have hp : parseProtoFields abortFramePayload = some [⟨5, 2, .bytes [10, 0]⟩] := by decide
    simp only [stepEvent, hguard, Bool.false_eq_true, if_false]
    simp only [processFrame, if_neg (show ¬ ((0 : Nat) &&& 0x80 ≠ 0) by decide), hp]
    simp only [List.foldl_cons, List.foldl_nil, processServerField,
      show parseProtoFields [10, 0] = some [⟨1, 2, .bytes []⟩] from by decide]
    simp only [abortFieldLoop, show parseProtoFields ([] : List Nat) = some [] from rfl]
    simp [markProgress, resetsIdle]
  · have hp : parseProtoFields partialFramePayload = some [⟨1, 2, .bytes [58, 0]⟩] := by decide
    have hiu : parseInteractionUpdate ext [58, 0]
        = some (ParsedInteractionUpdate.mk none false false none none
            (some (ext.parsePartialToolCallUpdate []))) := rfl
    simp only [stepEvent, hguard, Bool.false_eq_true, if_false]
    simp only [processFrame, if_neg (show ¬ ((0 : Nat) &&& 0x80 ≠ 0) by decide), hp]
    simp only [List.foldl_cons, List.foldl_nil, processServerField, hiu]
    simp [handleInteraction, textStage, toolStartedStage, toolCompletedStage, partialStage,
      completeStage, heartbeatStage, markProgress, resetsIdle]
  · intro hex
    obtain ⟨u, hu⟩ := Option.isSome_iff_exists.mp hex
    have hp : parseProtoFields execFramePayload = some [⟨2, 2, .bytes []⟩] := by decide
    simp only [stepEvent, hguard, Bool.false_eq_true, if_false]
    simp only [processFrame, if_neg (show ¬ ((0 : Nat) &&& 0x80 ≠ 0) by decide), hp]
    simp only [List.foldl_cons, List.foldl_nil, processServerField, hu]
    simp [markProgress, resetsIdle]
  · intro htc
    obtain ⟨tc, htcv⟩ := Option.isSome_iff_exists.mp htc
    have hp : parseProtoFields toolStartFramePayload
        = some [⟨1, 2, .bytes [18, 0]⟩] := by decide
    have hpi : parseProtoFields [18, 0] = some [⟨2, 2, .bytes []⟩] := by decide
    have hiu : parseInteractionUpdate ext [18, 0]
        = some (ParsedInteractionUpdate.mk none false false
            (some (ToolCallInfo.mk (ext.parseToolCallStartedUpdate []).callId
              (ext.parseToolCallStartedUpdate []).modelCallId
              tc.toolType tc.name tc.argumentsJson)) none none) := by
      unfold parseInteractionUpdate
      rw [hpi]
      show iuFieldLoop ext emptyInteractionUpdate [⟨2, 2, .bytes []⟩] = _
      unfold iuFieldLoop
      dsimp only
      rw [htcv]
      rfl
    simp only [stepEvent, hguard, Bool.false_eq_true, if_false]
    simp only [processFrame, if_neg (show ¬ ((0 : Nat) &&& 0x80 ≠ 0) by decide), hp]
    simp only [List.foldl_cons, List.foldl_nil, processServerField, hiu]
    simp [handleInteraction, textStage, toolStartedStage, toolCompletedStage, partialStage,
      completeStage, heartbeatStage, markProgress, resetsIdle]

def witnessHost : HostFns :=
  { jsonParse := fun _ => none
    parseToolCallStartedUpdate := fun _ =>
      { callId := strL "c", modelCallId := strL "m",
        toolCall := some { toolType := strL "function", name := strL "t", argumentsJson := [] } }
    parsePartialToolCallUpdate := fun _ => { callId := [], argsTextDelta := [] }
    parseExecServerMessage := fun _ => some () }

theorem heartbeat_policy_C4_witness :
    (stepEvent witnessHost (initSession 0)
        (.frame 7 0 heartbeatFramePayload)).heartbeatSinceProgress
      = (initSession 0).heartbeatSinceProgress + 1 :=
  (heartbeat_policy_C4 witnessHost (initSession 0) 7 rfl rfl).1

/-! ## The text-flag invariant and assistant recovery

`hasStreamedText` is the code's tracker for "some text chunk was yielded";
the invariant ties it to the yielded chunks, so the recovery premise can be
stated about the observable chunk sequence rather than internal state. -/

def isTextChunk : Chunk → Bool
  | .text _ => true
  | _ => false

/-- `hasStreamedText` holds exactly when a text chunk has been yielded. -/
def TextFlagInv (s : SessionState) : Prop :=
  s.hasStreamedText = s.chunks.any isTextChunk

theorem inv_push {s : SessionState} (h : TextFlagInv s) {c : Chunk}
    (hc : isTextChunk c = false) : TextFlagInv (pushChunk s c) := by
  unfold TextFlagInv pushChunk at *
  simp [h, hc]

theorem inv_markProgress {s : SessionState} (t : Nat) (h : TextFlagInv s) :
    TextFlagInv (markProgress t s) := h

theorem inv_textStage (t : Nat) (s : SessionState) (o : Option Str)
    (h : TextFlagInv s) : TextFlagInv (textStage t s o) := by
  unfold textStage
  rcases o with _ | txt
  · exact h
  · dsimp only
    split
    · exact h
    · unfold TextFlagInv at *
      simp [markProgress, pushChunk, isTextChunk]

theorem inv_toolStartedStage (t : Nat) (s : SessionState) (o : Option ToolCallInfo)
    (h : TextFlagInv s) : TextFlagInv (toolStartedStage t s o) := by
  unfold toolStartedStage
  rcases o with _ | info
  · exact h
  · exact inv_markProgress t (inv_push h rfl)

theorem inv_toolCompletedStage (t : Nat) (s : SessionState) (o : Option ToolCallInfo)
    (h : TextFlagInv s) : TextFlagInv (toolCompletedStage t s o) := by
  unfold toolCompletedStage
  rcases o with _ | info
  · exact h
  · exact inv_markProgress t (inv_push h rfl)

theorem inv_partialStage (t : Nat) (s : SessionState) (o : Option ParsedPartialToolCall)
    (h : TextFlagInv s) : TextFlagInv (partialStage t s o) := by
  unfold partialStage
  rcases o with _ | pc
  · exact h
  · exact inv_markProgress t (inv_push h rfl)

theorem inv_completeStage (s : SessionState) (b : Bool) (h : TextFlagInv s) :
    TextFlagInv (completeStage s b) := by
  unfold completeStage
  split
  · exact h
  · exact h

theorem inv_heartbeatStage (t : Nat) (s : SessionState) (b : Bool) (h : TextFlagInv s) :
    TextFlagInv (heartbeatStage t s b) := by
  unfold heartbeatStage
  split
  · dsimp only
    by_cases hc : ((if s.hasProgress then HEARTBEAT_MAX_PROGRESS else HEARTBEAT_MAX_NOPROGRESS)
          ≤ s.heartbeatSinceProgress + 1 ∨
        (if s.hasProgress then HEARTBEAT_IDLE_MS_PROGRESS else HEARTBEAT_IDLE_MS_NOPROGRESS)
          ≤ t - s.lastProgressAt)
    · rw [if_pos hc]
      exact h
    · rw [if_neg hc]
      exact inv_push (s := { s with heartbeatSinceProgress := s.heartbeatSinceProgress + 1 })
        h (by rfl)
  · exact h

theorem inv_handleInteraction (t : Nat) (s : SessionState) (p : ParsedInteractionUpdate)
    (h : TextFlagInv s) : TextFlagInv (handleInteraction t s p) :=
  inv_heartbeatStage t _ _
    (inv_completeStage _ _
      (inv_partialStage t _ _
        (inv_toolCompletedStage t _ _
          (inv_toolStartedStage t _ _ (inv_textStage t s _ h)))))

theorem handleKv_chunks (ext : HostFns) (s : SessionState) (kv : KvServerMessage) :
    (handleKvMessage ext s kv).chunks = s.chunks ∧
    (handleKvMessage ext s kv).hasStreamedText = s.hasStreamedText := by
  obtain ⟨i, mt, bid, bd⟩ := kv
  cases mt <;> cases bid <;> cases bd <;> exact ⟨rfl, rfl⟩

theorem inv_kvUpdate (ext : HostFns) (s : SessionState) (kv : KvServerMessage)
    (h : TextFlagInv s) :
    TextFlagInv { handleKvMessage ext s kv with
      currentSeq := (handleKvMessage ext s kv).localSeq } := by
  have hkv := handleKv_chunks ext s kv
  unfold TextFlagInv at *
  show (handleKvMessage ext s kv).hasStreamedText
    = ((handleKvMessage ext s kv).chunks.any isTextChunk)
  rw [hkv.1, hkv.2]
  exact h

theorem inv_abortLoop (s : SessionState) (cfs : List ProtoField) (h : TextFlagInv s) :
    TextFlagInv (abortFieldLoop s cfs).1 := by
  induction cfs generalizing s with
  | nil => exact h
  | cons cf rest ih =>
    unfold abortFieldLoop
    repeat' split
    all_goals first
      | exact h
      | exact ih s h
      | exact ih (pushChunk s .execServerAbort) (inv_push h rfl)

theorem inv_processServerField (ext : HostFns) (t : Nat) (s : SessionState)
    (f : ProtoField) (h : TextFlagInv s) : TextFlagInv (processServerField ext t s f) := by
  unfold processServerField
  repeat' split
  all_goals first
    | exact h
    | exact inv_push h rfl
    | exact inv_markProgress t (inv_push h rfl)
    | exact inv_handleInteraction t s _ h
    | exact inv_kvUpdate ext s _ h
    | exact inv_markProgress t (inv_abortLoop s _ h)
    | exact inv_push (inv_abortLoop s _ h) rfl

theorem inv_fieldFold (ext : HostFns) (t : Nat) (fields : List ProtoField)
    (s : SessionState) (h : TextFlagInv s) :
    TextFlagInv (fields.foldl (processServerField ext t) s) := by
  induction fields generalizing s with
  | nil => exact h
  | cons f fs ih => exact ih (processServerField ext t s f) (inv_processServerField ext t s f h)

theorem inv_processFrame (ext : HostFns) (t : Nat) (s : SessionState)
    (flags : Nat) (payload : List Nat) (h : TextFlagInv s) :
    TextFlagInv (processFrame ext t s flags payload) := by
  unfold processFrame
  split
  · by_cases hc : (containsSub (utf8DecodeLossy payload) (strL "grpc-status:")
        && !containsSub (utf8DecodeLossy payload) (strL "grpc-status: 0")) = true
    · rw [if_pos hc]
      split
      · exact inv_push h (by rfl)
      · unfold TextFlagInv at h ⊢
        simp [h, isTextChunk]
    · rw [if_neg hc]
      exact h
  · repeat' split
    all_goals first
      | exact inv_fieldFold ext t _ s h
      | (unfold TextFlagInv at h ⊢
         simp [h, isTextChunk])

theorem inv_stepEvent (ext : HostFns) (s : SessionState) (e : SessionEvent)
    (h : TextFlagInv s) : TextFlagInv (stepEvent ext s e) := by
  unfold stepEvent
  repeat' split
  all_goals first
    | exact h
    | exact inv_processFrame ext _ s _ _ h

theorem inv_processEvents (ext : HostFns) (t0 : Nat) (events : List SessionEvent) :
    TextFlagInv (processEvents ext t0 events) := by
  unfold processEvents
  have hinit : TextFlagInv (initSession t0) := rfl
  generalize initSession t0 = s0 at hinit ⊢
  induction events generalizing s0 with
  | nil => exact hinit
  | cons e es ih => exact ih (stepEvent ext s0 e) (inv_stepEvent ext s0 e hinit)

/-- C5: `hasStreamedText` of a run is exactly "some text chunk was yielded";
and whenever a run reaches turn-end (not a fatal error) with no text chunk
yielded and a non-empty recovered assistant-blob list, the full chunk
sequence is the chunks so far, then one `kv_blob_assistant` chunk per
recovered blob content, in recording order, then `done`. -/
theorem assistant_recovery_C5 (ext : HostFns) (t0 : Nat) (events : List SessionEvent) :
    ((processEvents ext t0 events).hasStreamedText
      = (processEvents ext t0 events).chunks.any isTextChunk) ∧
    ((processEvents ext t0 events).turnEnded = true →
     (processEvents ext t0 events).fatal = false →
     (processEvents ext t0 events).chunks.any isTextChunk = false →
     (processEvents ext t0 events).pendingAssistantBlobs ≠ [] →
     chatStreamModel ext t0 events
       = (processEvents ext t0 events).chunks
         ++ (processEvents ext t0 events).pendingAssistantBlobs.map
             (fun b => Chunk.kvBlobAssistant b.content)
         ++ [Chunk.done]) := by
  refine ⟨inv_processEvents ext t0 events, fun hT hF hNoText hBlobs => ?_⟩
  have hflag : (processEvents ext t0 events).hasStreamedText = false :=
    (inv_processEvents ext t0 events).trans hNoText
  unfold chatStreamModel
  dsimp only
  rw [hF, hT]
  simp only [Bool.false_eq_true, if_false, if_true]
  unfold recoveryChunks
  rw [hflag]
  have hb : ((processEvents ext t0 events).pendingAssistantBlobs == []) = false := by
    simpa using hBlobs
  rw [hb]
  simp

def turnEndFramePayload : List Nat := encodeMessageField 1 (encodeUint32Field 14 1)

def assistantHost : HostFns :=
  { jsonParse := fun _ => some (Json.obj [(strL "role", Json.str (strL "assistant")),
      (strL "content", Json.str (strL "hi"))])
    parseToolCallStartedUpdate := fun _ => { callId := [], modelCallId := [], toolCall := none }
    parsePartialToolCallUpdate := fun _ => { callId := [], argsTextDelta := [] }
    parseExecServerMessage := fun _ => none }

def recoveryEvents : List SessionEvent :=
  [.frame 0 0 kvSetFramePayload, .frame 1 0 turnEndFramePayload]

theorem assistant_recovery_C5_witness :
    chatStreamModel assistantHost 0 recoveryEvents
      = [Chunk.kvBlobAssistant (strL "hi"), Chunk.done] :=
  ((assistant_recovery_C5 assistantHost 0 recoveryEvents).2 (by decide) (by decide)
    (by decide) (by decide)).trans (by decide)

end Spec2Proof
